import Mathlib

/-!
Verification development for the `go-traceurl-cli` redirect tracer.

The definitions below are a shallow embedding of the Go sources
(`go-trace.go`, `url-tracer.go`): the redirect-resolution loop
`followRedirects`, the relative-redirect resolver
`handleRelativeRedirect`, the query-parameter unwrapper (the
`returnUri` / `redir` rewrites inside the loop body), and the
clean-URL derivation `makeCleanURL`.

Strings are modelled as Lean `String` (lists of characters); the
pieces of Go's standard library that the program calls
(`net/url.Parse`, `URL.String`, `URL.Query`, `url.PathUnescape`,
`strings.Split`, `strings.Contains`, `strings.HasPrefix`,
`strings.ReplaceAll`) are given executable models covering the
hierarchical `scheme://host/path?query#fragment` shape the tracer
manipulates.  The network is an explicit oracle: a list of fetch
outcomes consumed one per loop iteration.
-/

/-! ## Character and list-of-character utilities -/

/-- Numeric value of a hexadecimal digit, if the character is one. -/
def hexDigitVal (c : Char) : Option Nat :=
  if '0' ≤ c ∧ c ≤ '9' then some (c.toNat - '0'.toNat)
  else if 'a' ≤ c ∧ c ≤ 'f' then some (c.toNat - 'a'.toNat + 10)
  else if 'A' ≤ c ∧ c ≤ 'F' then some (c.toNat - 'A'.toNat + 10)
  else none

/-- Validity of percent-escapes: every `%` is followed by two hex digits.
Models the escape check Go's `net/url` performs when parsing a URL
component. -/
def escValid : List Char → Bool
  | [] => true
  | c :: rest =>
    if c = '%' then
      match rest with
      | a :: b :: rest2 => (hexDigitVal a).isSome && (hexDigitVal b).isSome && escValid rest2
      | _ => false
    else escValid rest

/-- Model of Go `url.PathUnescape`: decode `%XX` escapes, leave `+`
untouched, fail on a malformed escape. -/
def pathUnescapeL : List Char → Option (List Char)
  | [] => some []
  | c :: rest =>
    if c = '%' then
      match rest with
      | a :: b :: rest2 =>
        match hexDigitVal a, hexDigitVal b with
        | some ha, some hb => (pathUnescapeL rest2).map (fun t => Char.ofNat (ha * 16 + hb) :: t)
        | _, _ => none
      | _ => none
    else (pathUnescapeL rest).map (fun t => c :: t)

/-- Model of Go `url.QueryUnescape`: like `pathUnescapeL` but `+`
decodes to a space. -/
def queryUnescapeL : List Char → Option (List Char)
  | [] => some []
  | c :: rest =>
    if c = '%' then
      match rest with
      | a :: b :: rest2 =>
        match hexDigitVal a, hexDigitVal b with
        | some ha, some hb => (queryUnescapeL rest2).map (fun t => Char.ofNat (ha * 16 + hb) :: t)
        | _, _ => none
      | _ => none
    else if c = '+' then (queryUnescapeL rest).map (fun t => ' ' :: t)
    else (queryUnescapeL rest).map (fun t => c :: t)

/-- Worker for `replaceEsc3`: when `skip` is positive the character was
already emitted as part of a replacement and is dropped; at `skip = 0`
a three-character lookahead decides whether a replacement starts
here.  Written this way the recursion is structural on the list. -/
def replaceEsc3Aux (p1 p2 p3 r : Char) : Nat → List Char → List Char
  | _, [] => []
  | n + 1, _ :: rest => replaceEsc3Aux p1 p2 p3 r n rest
  | 0, a :: rest =>
    if a = p1 ∧ rest.head? = some p2 ∧ rest.tail.head? = some p3 then
      r :: replaceEsc3Aux p1 p2 p3 r 2 rest
    else a :: replaceEsc3Aux p1 p2 p3 r 0 rest

/-- Model of Go `strings.ReplaceAll s pat repl` for a three-character
pattern replaced by a single character (the program only replaces
`%3A` with `:` and `%2F` with `/`): leftmost matches are replaced and
scanning resumes after the replaced segment. -/
def replaceEsc3 (p1 p2 p3 r : Char) (l : List Char) : List Char :=
  replaceEsc3Aux p1 p2 p3 r 0 l

/-- Model of Go `strings.Contains hay needle`. -/
def containsSub (needle : List Char) : List Char → Bool
  | [] => needle.isEmpty
  | c :: rest => needle.isPrefixOf (c :: rest) || containsSub needle rest

/-- Split a character list at the first occurrence of `c`: the part
before it, and (when present) the part after it.  Models Go
`strings.Cut`. -/
def cutAtChar (c : Char) : List Char → List Char × Option (List Char)
  | [] => ([], none)
  | x :: xs =>
    if x = c then ([], some xs)
    else
      let r := cutAtChar c xs
      (x :: r.1, r.2)

/-- Model of Go `strings.Split s sep` for a single-character
separator. -/
def splitChar (c : Char) : List Char → List (List Char)
  | [] => [[]]
  | x :: xs =>
    if x = c then [] :: splitChar c xs
    else
      match splitChar c xs with
      | [] => [[x]]
      | h :: t => (x :: h) :: t

/-! ## URL data model and parser (model of Go `net/url`) -/

/-- The subset of Go's `url.URL` structure that the tracer reads and
writes.  Go additionally keeps `Opaque`, `User`, `RawPath`,
`ForceQuery`, `RawFragment` and `OmitHost`; none of them is consulted
by the tracer's code paths modelled here (an opaque suffix is folded
into `Path`, noted at its construction site). -/
structure GoURL where
  Scheme : String
  Host : String
  Path : String
  RawQuery : String
  Fragment : String
deriving DecidableEq, Repr

/-- Scheme syntax: one letter followed by letters, digits, `+`, `-`,
`.` — as in Go's `getScheme`. -/
def validSchemeChars : List Char → Bool
  | [] => false
  | c :: rest => c.isAlpha && rest.all (fun d => d.isAlpha || d.isDigit || d = '+' || d = '-' || d = '.')

/-- Model of Go `getScheme`: split `scheme:rest` off the front when the
text before the first colon is scheme-shaped (lower-casing the scheme),
fail on a leading colon, and otherwise leave the input untouched. -/
def getSchemeL (l : List Char) : Option (List Char × List Char) :=
  match cutAtChar ':' l with
  | (before, some after) =>
    if before = [] then none
    else if validSchemeChars before then some (before.map Char.toLower, after)
    else some ([], l)
  | (_, none) => some ([], l)

/-- Model of Go `url.Parse` for the hierarchical URL shapes the tracer
handles: cut the fragment at the first `#`, split a scheme, cut the
query at the first `?`, read a `//host` authority when present, and
validate percent-escapes in the remaining components.  The Go `Opaque`
case (`scheme:rest` with no leading slash) is stored in `Path`;
user-info in the authority is not modelled (no traced URL carries
it). -/
def parseURL (s : String) : Option GoURL :=
  let fr := cutAtChar '#' s.data
  let frag := fr.2.getD []
  if escValid frag then
    match getSchemeL fr.1 with
    | none => none
    | some (sch, rest0) =>
      let qr := cutAtChar '?' rest0
      let rest1 := qr.1
      let rawQ := qr.2.getD []
      if ['/'].isPrefixOf rest1 then
        if ['/', '/'].isPrefixOf rest1 && (!sch.isEmpty || !(['/', '/', '/'].isPrefixOf rest1)) then
          let rest2 := rest1.drop 2
          let host := rest2.takeWhile (fun c => c ≠ '/')
          let path := rest2.dropWhile (fun c => c ≠ '/')
          if escValid host && escValid path then
            some ⟨String.mk sch, String.mk host, String.mk path, String.mk rawQ, String.mk frag⟩
          else none
        else
          if escValid rest1 then
            some ⟨String.mk sch, "", String.mk rest1, String.mk rawQ, String.mk frag⟩
          else none
      else
        if sch.isEmpty then
          if (rest1.takeWhile (fun c => c ≠ '/')).contains ':' then none
          else if escValid rest1 then
            some ⟨"", "", String.mk rest1, String.mk rawQ, String.mk frag⟩
          else none
        else
          -- Go stores this suffix as Opaque; modelled as Path here.
          some ⟨String.mk sch, "", String.mk rest1, String.mk rawQ, String.mk frag⟩
  else none

/-- Model of Go `url.URL.String` for the fields of `GoURL`:
`scheme:` when a scheme is present, `//host` when the URL is
hierarchical, then path, `?query` and `#fragment` when non-empty. -/
def GoURL.toString (u : GoURL) : String :=
  (if u.Scheme ≠ "" then u.Scheme ++ ":" else "") ++
  (if (u.Scheme ≠ "" ∨ u.Host ≠ "") ∧ (u.Host ≠ "" ∨ u.Path ≠ "") then "//" ++ u.Host else "") ++
  (if u.Path ≠ "" ∧ ¬ ['/'].isPrefixOf u.Path.data ∧ u.Host ≠ "" then "/" else "") ++
  u.Path ++
  (if u.RawQuery ≠ "" then "?" ++ u.RawQuery else "") ++
  (if u.Fragment ≠ "" then "#" ++ u.Fragment else "")

/-- Key/value split of one query component at the first `=`
(Go `strings.Cut(component, "=")`; the value is empty when no `=` is
present). -/
def cutEq (l : List Char) : List Char × List Char :=
  (l.takeWhile (fun c => c ≠ '='), (l.dropWhile (fun c => c ≠ '=')).tail)

/-- Model of Go `url.ParseQuery` as called through `URL.Query()`:
split the raw query on `&`, skip empty components, components
containing `;`, and components whose key or value fails to unescape
(`Query()` discards the error), keeping the surviving pairs in order
of appearance. -/
def parseQuery (raw : String) : List (String × String) :=
  (splitChar '&' raw.data).filterMap (fun comp =>
    if comp.isEmpty then none
    else if comp.contains ';' then none
    else
      let kv := cutEq comp
      match queryUnescapeL kv.1 with
      | none => none
      | some k =>
        match queryUnescapeL kv.2 with
        | none => none
        | some v => some (String.mk k, String.mk v))

/-- Model of Go `url.Values.Get`: first value recorded for the key, or
the empty string. -/
def getQ (ps : List (String × String)) (key : String) : String :=
  match ps.find? (fun p => p.1 == key) with
  | some p => p.2
  | none => ""

/-! ## Clean-URL derivation (`makeCleanURL`, go-trace.go lines 171-180) -/

/-- Model of `makeCleanURL`: split the URL on `?`; if the split
produced more than one part return the first part, otherwise return
the input unchanged. -/
def makeCleanURL (url : String) : String :=
  let parts := splitChar '?' url.data
  if parts.length > 1 then String.mk (parts.headD []) else url

/-! ## Engine data model (go-trace.go lines 40-54 and return values) -/

/-- One recorded hop (go-trace.go lines 40-44). -/
structure Hop where
  Number : Nat
  URL : String
  StatusCode : Nat
deriving DecidableEq, Repr

/-- One HTTP response as the loop observes it: status code plus the
`Location` and `Server` headers (absent headers are the empty string,
as returned by Go `Header.Get`). -/
structure Response where
  StatusCode : Nat
  Location : String
  Server : String
deriving DecidableEq, Repr

/-- Outcome of one network fetch (`client.Do`), as classified by the
error handling at go-trace.go lines 306-325: a response, a timeout, a
certificate-validation failure, or any other transport error. -/
inductive FetchOutcome where
  | success (resp : Response)
  | timeoutErr
  | certErr
  | netErr
deriving DecidableEq, Repr

/-- Failures of `handleRelativeRedirect` (go-trace.go lines 408-438):
the location fails to parse, or a scheme or host is missing with no
source to inherit it from. -/
inductive RedirectErr where
  | parseFailed
  | missingScheme
  | missingHost
deriving DecidableEq, Repr

/-- The error values `followRedirects` can return, one per
`fmt.Errorf` site in go-trace.go lines 298-399. -/
inductive TraceErr where
  | creatingRequest
  | accessingURL
  | relativeRedirect (e : RedirectErr)
  | parsingRedirectURL
  | decodingReturnUri
  | decodingRedir
  | parsingNextURL
deriving DecidableEq, Repr

/-- The four return values of `followRedirects`:
`(finalURL, hops, cloudflareStatus, err)`. -/
structure FollowReturn where
  FinalURL : String
  Hops : List Hop
  CloudflareStatus : Bool
  Err : Option TraceErr
deriving DecidableEq, Repr

/-- Result of running the resolver: either the function returns a
`FollowReturn`, or one of `doTimeout` / `doValidationError`
terminates the process (go-trace.go lines 259-267). -/
inductive TraceOutcome where
  | ret (r : FollowReturn)
  | exitTimeout
  | exitValidation
deriving DecidableEq, Repr

/-- Sentinel status appended on loop detection
(`http.StatusLoopDetected`). -/
def statusLoopDetected : Nat := 508

/-- Forced status of the special-provider final hop (`http.StatusOK`). -/
def statusOK : Nat := 200

/-! ## Relative-redirect resolver (go-trace.go lines 408-438) -/

/-- Model of `handleRelativeRedirect(previousURL, location, requestURL)`:
parse `location`; when its scheme is empty copy the scheme of
`previousURL` if that pointer is non-nil, else of `requestURL` if
non-nil, else fail; then the same for the host; all other components
of the parsed location are returned unchanged. -/
def handleRelativeRedirect (previousURL : Option GoURL) (location : String)
    (requestURL : Option GoURL) : Except RedirectErr GoURL :=
  match parseURL location with
  | none => .error .parseFailed
  | some redirectURL =>
    let step1 : Except RedirectErr GoURL :=
      if redirectURL.Scheme = "" then
        match previousURL with
        | some p => .ok { redirectURL with Scheme := p.Scheme }
        | none =>
          match requestURL with
          | some q => .ok { redirectURL with Scheme := q.Scheme }
          | none => .error .missingScheme
      else .ok redirectURL
    match step1 with
    | .error e => .error e
    | .ok r1 =>
      if r1.Host = "" then
        match previousURL with
        | some p => .ok { r1 with Host := p.Host }
        | none =>
          match requestURL with
          | some q => .ok { r1 with Host := q.Host }
          | none => .error .missingHost
      else .ok r1

/-! ## Parameter unwrapper (go-trace.go lines 366-392) -/

/-- The `returnUri` / `redir` rewriting block of the loop body, applied
to the parsed redirect target `u` and the serialized redirect URL
string.  Each recognized parameter with a non-empty value is
path-unescaped, has literal `%3A` / `%2F` replaced by `:` / `/`, and
replaces the whole URL by `scheme://host/path?name=decoded`.  The two
rewrites are two independent `if` statements in the source: when both
parameters are present the `redir` rewrite executes second and
overwrites the `returnUri` rewrite. -/
def unwrapParams (u : GoURL) (redirectURLString : String) : Except TraceErr String :=
  let queryParams := parseQuery u.RawQuery
  let afterReturnUri : Except TraceErr String :=
    let returnURI := getQ queryParams "returnUri"
    if returnURI ≠ "" then
      match pathUnescapeL returnURI.data with
      | none => .error .decodingReturnUri
      | some d0 =>
        let d1 := replaceEsc3 '%' '3' 'A' ':' d0
        let d2 := replaceEsc3 '%' '2' 'F' '/' d1
        .ok (u.Scheme ++ "://" ++ u.Host ++ u.Path ++ "?returnUri=" ++ String.mk d2)
    else .ok redirectURLString
  match afterReturnUri with
  | .error e => .error e
  | .ok s1 =>
    let redirURI := getQ queryParams "redir"
    if redirURI ≠ "" then
      match pathUnescapeL redirURI.data with
      | none => .error .decodingRedir
      | some d0 =>
        let d1 := replaceEsc3 '%' '3' 'A' ':' d0
        let d2 := replaceEsc3 '%' '2' 'F' '/' d1
        .ok (u.Scheme ++ "://" ++ u.Host ++ u.Path ++ "?redir=" ++ String.mk d2)
    else .ok s1

/-! ## Redirect resolution loop (go-trace.go lines 269-406) -/

/-- The special-provider test: `strings.HasPrefix(location,
"https://outlook.office365.com")`. -/
def hasO365 (location : String) : Bool :=
  "https://outlook.office365.com".data.isPrefixOf location.data

/-- Composition of go-trace.go lines 358-392: resolve the location
against the previous URL and the request URL, serialize, re-parse, and
apply the parameter unwrapper, propagating each error exactly as the
source wraps it. -/
def nextURL (previousURL : Option GoURL) (location : String) (reqURL : GoURL) :
    Except TraceErr String :=
  match handleRelativeRedirect previousURL location (some reqURL) with
  | .error e => .error (.relativeRedirect e)
  | .ok redirectURL =>
    let redirectURLString := redirectURL.toString
    match parseURL redirectURLString with
    | none => .error .parsingRedirectURL
    | some u => unwrapParams u redirectURLString

/-- The visited-set update `visitedURLs[urlStr]++`. -/
def bumpVisited (visited : String → Nat) (urlStr : String) : String → Nat :=
  fun s => if s = urlStr then visited s + 1 else visited s

/-- The visited set right after `visitedURLs[urlStr] = 1` at
go-trace.go line 282. -/
def initialVisited (seed : String) : String → Nat :=
  fun s => if s = seed then 1 else 0

/-- One-per-iteration model of the `for` loop of `followRedirects`
(go-trace.go lines 284-405).  The state mirrors the Go locals:
current URL, accumulated hops, hop number, previous parsed URL,
visited counts and the cloudflare flag.  The network oracle `fetches`
supplies the outcome of each `client.Do` call; an exhausted oracle
behaves as a transport error. -/
def goFollow (fetches : List FetchOutcome) (urlStr : String) (hops : List Hop)
    (number : Nat) (previousURL : Option GoURL) (visitedURLs : String → Nat)
    (cloudflareStatus : Bool) : TraceOutcome :=
  if visitedURLs urlStr > 1 then
    .ret ⟨urlStr, hops ++ [⟨number, urlStr, statusLoopDetected⟩], cloudflareStatus, none⟩
  else
    match parseURL urlStr with
    | none => .ret ⟨"", [], cloudflareStatus, some .creatingRequest⟩
    | some reqURL =>
      match fetches with
      | [] => .ret ⟨"", [], cloudflareStatus, some .accessingURL⟩
      | f :: rest =>
        match f with
        | .timeoutErr => .exitTimeout
        | .certErr => .exitValidation
        | .netErr => .ret ⟨"", [], cloudflareStatus, some .accessingURL⟩
        | .success resp =>
          if 300 ≤ resp.StatusCode ∧ resp.StatusCode ≤ 399 then
            if resp.Location = "" then
              .ret ⟨"", [],
                    if containsSub "cloudflare".data resp.Server.data then true
                    else cloudflareStatus,
                    none⟩
            else if hasO365 resp.Location then
              .ret ⟨resp.Location,
                    (hops ++ [⟨number, urlStr, resp.StatusCode⟩]) ++
                      [⟨number + 2, resp.Location, statusOK⟩],
                    cloudflareStatus, none⟩
            else
              match nextURL previousURL resp.Location reqURL with
              | .error e => .ret ⟨"", [], cloudflareStatus, some e⟩
              | .ok newStr =>
                match parseURL newStr with
                | none => .ret ⟨"", [], cloudflareStatus, some .parsingNextURL⟩
                | some newPrev =>
                  goFollow rest newStr (hops ++ [⟨number, urlStr, resp.StatusCode⟩])
                    (number + 1) (some newPrev) (bumpVisited visitedURLs urlStr)
                    cloudflareStatus
          else
            .ret ⟨urlStr, hops ++ [⟨number, urlStr, resp.StatusCode⟩], cloudflareStatus, none⟩

/-- Model of `followRedirects(urlStr)`: run the loop from the initial
state of go-trace.go lines 269-282. -/
def followRedirects (fetches : List FetchOutcome) (urlStr : String) : TraceOutcome :=
  goFollow fetches urlStr [] 1 none (initialVisited urlStr) false

/-! ## Definitions used to state the claims -/

/-- Specification-side restatement of the relative-redirect rule, written
from the spec's words for comparison with `handleRelativeRedirect`:
take the scheme from the location when present, else from
`previousAbsoluteURL` when that is available (non-nil), else from
`requestURL` when available, failing with `MissingScheme` when neither
is available; then the same for the host with `MissingHost`; path,
query and fragment are preserved exactly as given in the location. -/
def resolveLocationSpec (loc : GoURL) (prev req : Option GoURL) : Except RedirectErr GoURL :=
  let schemeSrc : Option String :=
    if loc.Scheme ≠ "" then some loc.Scheme
    else
      match prev with
      | some p => some p.Scheme
      | none =>
        match req with
        | some q => some q.Scheme
        | none => none
  match schemeSrc with
  | none => .error .missingScheme
  | some sch =>
    let hostSrc : Option String :=
      if loc.Host ≠ "" then some loc.Host
      else
        match prev with
        | some p => some p.Host
        | none =>
          match req with
          | some q => some q.Host
          | none => none
    match hostSrc with
    | none => .error .missingHost
    | some h => .ok ⟨sch, h, loc.Path, loc.RawQuery, loc.Fragment⟩

/-- Hops numbered consecutively from `number` for a list of
(requested URL, status) steps. -/
def numberFrom (number : Nat) : List (String × Nat) → List Hop
  | [] => []
  | p :: t => ⟨number, p.1, p.2⟩ :: numberFrom (number + 1) t

/-- A clean redirect chain: each iteration's URL is unvisited (no
repeats), each non-final response is a redirect with a non-empty,
non-special-provider Location that processes to the next URL, and the
final response is a non-redirect.  `steps` records the (requested URL,
status) of each iteration and `fin` the last requested URL. -/
inductive Chain :
    Option GoURL → (String → Nat) → String → List FetchOutcome →
    List (String × Nat) → String → Prop where
  | last : ∀ (prev : Option GoURL) (visited : String → Nat) (u : String) (s : Nat)
      (loc srv : String) (ru : GoURL),
      ¬ visited u > 1 → parseURL u = some ru → ¬ (300 ≤ s ∧ s ≤ 399) →
      Chain prev visited u [.success ⟨s, loc, srv⟩] [(u, s)] u
  | step : ∀ (prev : Option GoURL) (visited : String → Nat) (u : String) (s : Nat)
      (loc srv : String) (ru : GoURL) (rest : List FetchOutcome)
      (steps : List (String × Nat)) (fin u2 : String) (pu2 : GoURL),
      ¬ visited u > 1 → parseURL u = some ru →
      300 ≤ s → s ≤ 399 → loc ≠ "" → hasO365 loc = false →
      nextURL prev loc ru = .ok u2 → parseURL u2 = some pu2 →
      Chain (some pu2) (bumpVisited visited u) u2 rest steps fin →
      Chain prev visited u (.success ⟨s, loc, srv⟩ :: rest) ((u, s) :: steps) fin

/-- Accessors used to state C10 over the outcome type. -/
def TraceOutcome.errOf : TraceOutcome → Option TraceErr
  | .ret r => r.Err
  | _ => none

def TraceOutcome.hopsOf : TraceOutcome → List Hop
  | .ret r => r.Hops
  | _ => []

def TraceOutcome.finalOf : TraceOutcome → String
  | .ret r => r.FinalURL
  | _ => ""

/-! ## Helper lemmas about `splitChar` (for the clean-URL claims) -/

theorem splitChar_ne_nil (c : Char) (l : List Char) : splitChar c l ≠ [] := by
  induction l with
  | nil => simp [splitChar]
  | cons x xs ih =>
    by_cases h : x = c
    · simp [splitChar, h]
    · simp only [splitChar, if_neg h]
      cases hxs : splitChar c xs with
      | nil => simp
      | cons hd tl => simp

theorem splitChar_headD (c : Char) (l : List Char) :
    (splitChar c l).headD [] = l.takeWhile (fun x => x ≠ c) := by
  induction l with
  | nil => simp [splitChar]
  | cons x xs ih =>
    by_cases h : x = c
    · simp [splitChar, h, List.takeWhile]
    · simp only [splitChar, if_neg h]
      cases hxs : splitChar c xs with
      | nil => exact absurd hxs (splitChar_ne_nil c xs)
      | cons hd tl =>
        rw [hxs] at ih
        simp only [List.headD] at ih
        simp [List.takeWhile, h, ih]

theorem splitChar_length_gt_one (c : Char) (l : List Char) :
    (splitChar c l).length > 1 ↔ c ∈ l := by
  induction l with
  | nil => simp [splitChar]
  | cons x xs ih =>
    by_cases h : x = c
    · subst h
      cases hxs : splitChar x xs with
      | nil => exact absurd hxs (splitChar_ne_nil x xs)
      | cons hd tl =>
        have hstep : splitChar x (x :: xs) = [] :: hd :: tl := by simp [splitChar, hxs]
        rw [hstep]
        simp only [List.length_cons, List.mem_cons]
        constructor
        · intro _; simp
        · intro _; omega
    · simp only [splitChar, if_neg h]
      cases hxs : splitChar c xs with
      | nil => exact absurd hxs (splitChar_ne_nil c xs)
      | cons hd tl =>
        rw [hxs] at ih
        simp only [List.length_cons] at ih ⊢
        simp only [List.mem_cons]
        constructor
        · intro hlen; exact Or.inr (ih.mp hlen)
        · intro hm
          cases hm with
          | inl he => exact absurd he.symm h
          | inr hm => exact ih.mpr hm

/-- C8: the clean-URL derivation is idempotent: for every URL string
`u`, `makeCleanURL (makeCleanURL u) = makeCleanURL u`, where
`makeCleanURL` returns the portion of its input before the first `?`
and returns the input unchanged when no `?` is present. -/
theorem c8_makeCleanURL_idempotent (u : String) :
    makeCleanURL (makeCleanURL u) = makeCleanURL u := by
  by_cases h : '?' ∈ u.data
  · have h1 : makeCleanURL u = String.mk (u.data.takeWhile (fun x => x ≠ '?')) := by
      unfold makeCleanURL
      rw [if_pos ((splitChar_length_gt_one '?' u.data).mpr h), splitChar_headD]
    have h2 : '?' ∉ u.data.takeWhile (fun x => x ≠ '?') := by
      intro hmem
      have h3 := List.mem_takeWhile_imp hmem
      simp at h3
    have hneg :
        ¬ (splitChar '?' (String.mk (u.data.takeWhile (fun x => x ≠ '?'))).data).length > 1 := by
      intro hgt
      exact h2 ((splitChar_length_gt_one '?' _).mp hgt)
    rw [h1]
    unfold makeCleanURL
    exact if_neg hneg
  · have hneg : ¬ (splitChar '?' u.data).length > 1 :=
      fun hgt => h ((splitChar_length_gt_one '?' u.data).mp hgt)
    have h1 : makeCleanURL u = u := by
      unfold makeCleanURL
      exact if_neg hneg
    rw [h1, h1]

/-! ## Claims C7 and C9: the relative-redirect resolver -/

/-- C7: for every location string that parses, `handleRelativeRedirect`
behaves exactly as the spec's rule `resolveLocationSpec`: a missing
scheme is inherited from `previousAbsoluteURL` when that is available,
else from `requestURL`, failing with MissingScheme exactly when
neither is available; symmetrically for a missing host with
MissingHost; and the location's path, query and fragment are preserved
exactly as given. -/
theorem c7_relative_redirect_spec (location : String) (prev req : Option GoURL)
    (loc : GoURL) (hp : parseURL location = some loc) :
    handleRelativeRedirect prev location req = resolveLocationSpec loc prev req := by
  obtain ⟨ls, lh, lp, lq, lf⟩ := loc
  unfold handleRelativeRedirect resolveLocationSpec
  rw [hp]
  cases prev with
  | none =>
    cases req with
    | none =>
      by_cases hs : ls = "" <;> by_cases hh : lh = "" <;> simp [hs, hh]
    | some q =>
      by_cases hs : ls = "" <;> by_cases hh : lh = "" <;> simp [hs, hh]
  | some p =>
    by_cases hs : ls = "" <;> by_cases hh : lh = "" <;> simp [hs, hh]

/-- C7 witness: resolving location `/path` against
`previousAbsoluteURL = http://a.example/x` (no request URL needed)
follows the spec rule; the inherited result is
`http://a.example/path`. -/
theorem c7_witness :
    handleRelativeRedirect (some ⟨"http", "a.example", "/x", "", ""⟩) "/path" none =
      Except.ok ⟨"http", "a.example", "/path", "", ""⟩ := by
  have h := c7_relative_redirect_spec "/path" (some ⟨"http", "a.example", "/x", "", ""⟩)
    none ⟨"", "", "/path", "", ""⟩ rfl
  rw [h]
  rfl

/-- C9: the resolver fails with MissingScheme or MissingHost only when
both `previousAbsoluteURL` and `requestURL` are nil; whenever
`previousAbsoluteURL` is non-nil its scheme (resp. host) is copied even
when that value is the empty string, `requestURL` is never consulted
and no error is raised — so the returned URL may itself lack a scheme
or host (the witness exhibits such a case). -/
theorem c9_prev_shadows_request :
    (∀ (prev req : Option GoURL) (location : String) (e : RedirectErr),
      handleRelativeRedirect prev location req = .error e →
      (e = .missingScheme ∨ e = .missingHost) → prev = none ∧ req = none) ∧
    (∀ (p : GoURL) (location : String) (loc : GoURL) (req : Option GoURL),
      parseURL location = some loc →
      handleRelativeRedirect (some p) location req =
        Except.ok ⟨if loc.Scheme = "" then p.Scheme else loc.Scheme,
                   if loc.Host = "" then p.Host else loc.Host,
                   loc.Path, loc.RawQuery, loc.Fragment⟩) := by
  constructor
  · intro prev req location e h he
    unfold handleRelativeRedirect at h
    cases hp : parseURL location with
    | none =>
      rw [hp] at h
      cases h
      rcases he with h1 | h1 <;> cases h1
    | some loc =>
      obtain ⟨ls, lh, lp, lq, lf⟩ := loc
      rw [hp] at h
      cases prev with
      | some p =>
        by_cases hs : ls = "" <;> by_cases hh : lh = "" <;>
          simp [hs, hh] at h
      | none =>
        cases req with
        | some q =>
          by_cases hs : ls = "" <;> by_cases hh : lh = "" <;>
            simp [hs, hh] at h
        | none => exact ⟨rfl, rfl⟩
  · intro p location loc req hp
    obtain ⟨ls, lh, lp, lq, lf⟩ := loc
    unfold handleRelativeRedirect
    rw [hp]
    by_cases hs : ls = "" <;> by_cases hh : lh = "" <;> simp [hs, hh]

/-- C9 witness: with a non-nil `previousAbsoluteURL` whose scheme and
host are both empty, the empty values are copied, the (non-nil, fully
populated) `requestURL` is ignored, and the returned URL lacks both a
scheme and a host. -/
theorem c9_witness :
    handleRelativeRedirect (some ⟨"", "", "", "", ""⟩) "/p"
        (some ⟨"https", "b.example", "/y", "", ""⟩) =
      Except.ok ⟨"", "", "/p", "", ""⟩ := by
  have h := c9_prev_shadows_request.2 ⟨"", "", "", "", ""⟩ "/p" ⟨"", "", "/p", "", ""⟩
    (some ⟨"https", "b.example", "/y", "", ""⟩) rfl
  rw [h]
  rfl

/-! ## Claim C1: the parameter unwrapper with both parameters present -/

/-- C1 counterexample: a redirect target whose query carries both
`returnUri=%2Fa` and `redir=%2Fb` (both non-empty after query
decoding).  The claim says the result's query would consist solely of
`returnUri` holding its decoded value (`?returnUri=/a`) and that the
`redir` rewrite is never applied; the code instead produces
`?redir=/b` — the `redir` rewrite ran and overwrote the `returnUri`
rewrite. -/
theorem c1_counterexample :
    getQ (parseQuery "returnUri=%2Fa&redir=%2Fb") "returnUri" = "/a" ∧
    getQ (parseQuery "returnUri=%2Fa&redir=%2Fb") "redir" = "/b" ∧
    unwrapParams ⟨"https", "h", "/p", "returnUri=%2Fa&redir=%2Fb", ""⟩
        "https://h/p?returnUri=%2Fa&redir=%2Fb" =
      Except.ok "https://h/p?redir=/b" ∧
    ("https://h/p?redir=/b" : String) ≠ "https://h/p?returnUri=/a" :=
  ⟨rfl, rfl, rfl, by decide⟩

/-- C1 amended: when the redirect target's query contains both a
non-empty `returnUri` and a non-empty `redir` parameter (and both
decode without error), the two rewrites are applied in order and the
`redir` rewrite, executed second, wins: the resulting URL is
`scheme://host/path?redir=` followed by the decoded `redir` value
(with `%3A`/`%2F` replaced by `:`/`/`), not the `returnUri` form. -/
theorem c1_amended_redir_wins (u : GoURL) (s : String) (d1 d2 : List Char)
    (h1 : getQ (parseQuery u.RawQuery) "returnUri" ≠ "")
    (h2 : getQ (parseQuery u.RawQuery) "redir" ≠ "")
    (hd1 : pathUnescapeL (getQ (parseQuery u.RawQuery) "returnUri").data = some d1)
    (hd2 : pathUnescapeL (getQ (parseQuery u.RawQuery) "redir").data = some d2) :
    unwrapParams u s =
      Except.ok (u.Scheme ++ "://" ++ u.Host ++ u.Path ++ "?redir=" ++
        String.mk (replaceEsc3 '%' '2' 'F' '/' (replaceEsc3 '%' '3' 'A' ':' d2))) := by
  unfold unwrapParams
  simp only [h1, h2, hd1, hd2, if_pos, ne_eq, not_false_eq_true, if_true, ite_true]

/-- C1 witness for the amended claim: at the counterexample's input the
amended statement computes `?redir=/b`. -/
theorem c1_amended_witness :
    unwrapParams ⟨"https", "h", "/p", "returnUri=%2Fa&redir=%2Fb", ""⟩
        "https://h/p?returnUri=%2Fa&redir=%2Fb" =
      Except.ok "https://h/p?redir=/b" := by
  have h := c1_amended_redir_wins ⟨"https", "h", "/p", "returnUri=%2Fa&redir=%2Fb", ""⟩
    "https://h/p?returnUri=%2Fa&redir=%2Fb" "/a".data "/b".data
    (by decide) (by decide) rfl rfl
  rw [h]
  rfl

/-! ## Claim C2: loop detection -/

/-- C2 counterexample: at the very first iteration on the seed URL the
visited count is already 1 (the seed is pre-seeded, go-trace.go line
282), i.e. at least 1, yet the URL is fetched and the resolution
terminates normally with the fetched status-200 hop — no
loop-detection hop with the sentinel status is appended.  The claim's
threshold of "at least 1" is therefore wrong: the code's test is
strictly greater than 1. -/
theorem c2_counterexample :
    initialVisited "http://a/1" "http://a/1" = 1 ∧
    followRedirects [.success ⟨200, "", ""⟩] "http://a/1" =
      .ret ⟨"http://a/1", [⟨1, "http://a/1", 200⟩], false, none⟩ ∧
    (200 : Nat) ≠ statusLoopDetected :=
  ⟨rfl, rfl, by decide⟩

/-- C2 amended: at any iteration whose current URL has a visit count of
at least 2 (the code tests `> 1`; the seed URL starts pre-seeded at 1),
the loop appends exactly one hop carrying the sentinel status 508 and
terminates, returning the hops accumulated so far; the result does not
depend on the network oracle, so the URL is not fetched again. -/
theorem c2_amended_loop_detection (fetches : List FetchOutcome) (urlStr : String)
    (hops : List Hop) (number : Nat) (prev : Option GoURL) (visited : String → Nat)
    (cf : Bool) (h : visited urlStr > 1) :
    goFollow fetches urlStr hops number prev visited cf =
      .ret ⟨urlStr, hops ++ [⟨number, urlStr, statusLoopDetected⟩], cf, none⟩ := by
  cases fetches with
  | nil => unfold goFollow; rw [if_pos h]
  | cons f rest => unfold goFollow; rw [if_pos h]

/-- C2 witness for the amended claim: a state whose current URL has
count 2 terminates with the sentinel hop. -/
theorem c2_amended_witness :
    goFollow [] "u" [] 5 none (fun _ => 2) false =
      .ret ⟨"u", [⟨5, "u", statusLoopDetected⟩], false, none⟩ :=
  c2_amended_loop_detection [] "u" [] 5 none (fun _ => 2) false (by decide)

/-! ## Claim C3: redirect status with no Location header -/

/-- C3 counterexample: a 302 response with no Location header and a
non-cloudflare Server header.  The resolution terminates without error
and with no hops, but the final URL is the empty string — not the
current URL `http://a/1` unchanged, as the claim states. -/
theorem c3_counterexample :
    followRedirects [.success ⟨302, "", "nginx"⟩] "http://a/1" =
      .ret ⟨"", [], false, none⟩ ∧
    ("" : String) ≠ "http://a/1" :=
  ⟨rfl, by decide⟩

/-- C3 amended: on a redirect status (300-399) whose response has no
Location header, the resolver terminates without error with an empty
hop ledger and an empty final URL (not the current URL); the
cloudflare flag — the Blocked signal — is set exactly when the Server
header contains "cloudflare". -/
theorem c3_amended_missing_location (rest : List FetchOutcome) (urlStr : String)
    (hops : List Hop) (number : Nat) (prev : Option GoURL) (visited : String → Nat)
    (cf : Bool) (s : Nat) (srv : String) (ru : GoURL)
    (hv : ¬ visited urlStr > 1) (hp : parseURL urlStr = some ru)
    (h3 : 300 ≤ s) (h4 : s ≤ 399) :
    goFollow (.success ⟨s, "", srv⟩ :: rest) urlStr hops number prev visited cf =
      .ret ⟨"", [],
            if containsSub "cloudflare".data srv.data then true else cf,
            none⟩ := by
  unfold goFollow
  rw [if_neg hv, hp]
  simp [h3, h4]

/-- C3 witness for the amended claim: a cloudflare-served 302 with no
Location terminates with the flag set, empty hops and empty final
URL. -/
theorem c3_amended_witness :
    followRedirects [.success ⟨302, "", "cloudflare"⟩] "http://a/1" =
      .ret ⟨"", [], true, none⟩ :=
  c3_amended_missing_location [] "http://a/1" [] 1 none (initialVisited "http://a/1")
    false 302 "cloudflare" ⟨"http", "a", "/1", "", ""⟩ (by decide) rfl
    (by decide) (by decide)

/-! ## Claim C5: the special-provider (outlook.office365.com) shortcut -/

/-- C5: when the redirect Location begins with
`https://outlook.office365.com`, one additional hop is appended whose
number is the current hop number plus 2, whose status is forced to
200, and whose URL is the Location verbatim; the resolver terminates
without error with the Location as final URL. -/
theorem c5_o365_shortcut (rest : List FetchOutcome) (urlStr : String)
    (hops : List Hop) (number : Nat) (prev : Option GoURL) (visited : String → Nat)
    (cf : Bool) (s : Nat) (loc srv : String) (ru : GoURL)
    (hv : ¬ visited urlStr > 1) (hp : parseURL urlStr = some ru)
    (h3 : 300 ≤ s) (h4 : s ≤ 399) (ho : hasO365 loc = true) :
    goFollow (.success ⟨s, loc, srv⟩ :: rest) urlStr hops number prev visited cf =
      .ret ⟨loc, hops ++ [⟨number, urlStr, s⟩, ⟨number + 2, loc, statusOK⟩], cf, none⟩ := by
  have hne : loc ≠ "" := by
    intro he
    rw [he] at ho
    exact absurd ho (by decide)
  unfold goFollow
  rw [if_neg hv, hp]
  simp [h3, h4, hne, ho]

/-- C5 witness: the seed redirects to an office365 Location; hop 1
keeps the redirect status, the appended final hop is numbered 1 + 2 =
3 with status 200 and the Location verbatim. -/
theorem c5_witness :
    followRedirects [.success ⟨302, "https://outlook.office365.com/x", "srv"⟩]
        "http://a/1" =
      .ret ⟨"https://outlook.office365.com/x",
            [⟨1, "http://a/1", 302⟩, ⟨3, "https://outlook.office365.com/x", 200⟩],
            false, none⟩ :=
  c5_o365_shortcut [] "http://a/1" [] 1 none (initialVisited "http://a/1") false
    302 "https://outlook.office365.com/x" "srv" ⟨"http", "a", "/1", "", ""⟩
    (by decide) rfl (by decide) (by decide) (by decide)

/-! ## Claim C6: self-loop on the seed URL -/

theorem goFollow_loop_stop (fetches : List FetchOutcome) (urlStr : String)
    (hops : List Hop) (number : Nat) (prev : Option GoURL) (visited : String → Nat)
    (cf : Bool) (h : visited urlStr > 1) :
    goFollow fetches urlStr hops number prev visited cf =
      .ret ⟨urlStr, hops ++ [⟨number, urlStr, statusLoopDetected⟩], cf, none⟩ := by
  cases fetches with
  | nil => unfold goFollow; rw [if_pos h]
  | cons f rest => unfold goFollow; rw [if_pos h]

/-- C6: if the seed URL's first fetch is a redirect whose Location
resolves back to the seed itself, resolution terminates through the
loop-detection branch with exactly two hops: hop 1 with the seed URL
and the redirect status, and hop 2 with the seed URL and the sentinel
status 508; the last hop's URL is the seed, which is also returned as
final URL, and the second iteration performs no fetch (the remaining
oracle is arbitrary). -/
theorem c6_self_loop (rest : List FetchOutcome) (x loc srv : String) (s : Nat)
    (rx : GoURL) (hp : parseURL x = some rx) (h3 : 300 ≤ s) (h4 : s ≤ 399)
    (hloc : loc ≠ "") (ho : hasO365 loc = false) (hnext : nextURL none loc rx = .ok x) :
    followRedirects (.success ⟨s, loc, srv⟩ :: rest) x =
      .ret ⟨x, [⟨1, x, s⟩, ⟨2, x, statusLoopDetected⟩], false, none⟩ := by
  have hv : ¬ initialVisited x x > 1 := by simp [initialVisited]
  have hb : bumpVisited (initialVisited x) x x > 1 := by simp [bumpVisited, initialVisited]
  unfold followRedirects goFollow
  rw [if_neg hv, hp]
  simp [hloc, ho, hnext, hp, h3, h4]
  rw [goFollow_loop_stop _ _ _ _ _ _ _ hb]
  rfl

/-- C6 witness: spec scenario B — seed `http://a/1`, one 302 response
whose Location is `http://a/1` itself. -/
theorem c6_witness :
    followRedirects [.success ⟨302, "http://a/1", ""⟩] "http://a/1" =
      .ret ⟨"http://a/1",
            [⟨1, "http://a/1", 302⟩, ⟨2, "http://a/1", statusLoopDetected⟩],
            false, none⟩ :=
  c6_self_loop [] "http://a/1" "http://a/1" "" 302 ⟨"http", "a", "/1", "", ""⟩ rfl
    (by decide) (by decide) (by decide) (by decide) rfl

/-! ## Claim C4: plain redirect chains -/

theorem chain_run {prev : Option GoURL} {visited : String → Nat} {u : String}
    {fetches : List FetchOutcome} {steps : List (String × Nat)} {fin : String}
    (h : Chain prev visited u fetches steps fin) :
    ∀ (hops : List Hop) (number : Nat) (cf : Bool),
      goFollow fetches u hops number prev visited cf =
        .ret ⟨fin, hops ++ numberFrom number steps, cf, none⟩ := by
  induction h with
  | last prev visited u s loc srv ru hv hp hs =>
    intro hops number cf
    unfold goFollow
    rw [if_neg hv, hp]
    simp [hs, numberFrom]
  | step prev visited u s loc srv ru rest steps fin u2 pu2 hv hp h3 h4 hloc ho hnx hp2 hch ih =>
    intro hops number cf
    unfold goFollow
    rw [if_neg hv, hp]
    simp [h3, h4, hloc, ho, hnx, hp2]
    rw [show hops ++ numberFrom number ((u, s) :: steps) =
        (hops ++ [⟨number, u, s⟩]) ++ numberFrom (number + 1) steps from by
      simp [numberFrom]]
    exact ih (hops ++ [⟨number, u, s⟩]) (number + 1) cf

theorem numberFrom_length (number : Nat) (steps : List (String × Nat)) :
    (numberFrom number steps).length = steps.length := by
  induction steps generalizing number with
  | nil => rfl
  | cons p t ih => simp [numberFrom, ih]

theorem numberFrom_getD_number (number : Nat) (steps : List (String × Nat)) :
    ∀ i, i < steps.length →
      ((numberFrom number steps).getD i ⟨0, "", 0⟩).Number = number + i := by
  induction steps generalizing number with
  | nil => intro i hi; simp at hi
  | cons p t ih =>
    intro i hi
    cases i with
    | zero => simp [numberFrom]
    | succ j =>
      simp only [numberFrom, List.getD_cons_succ]
      rw [ih (number + 1) j (by simpa using hi)]
      omega

theorem numberFrom_map_url (number : Nat) (steps : List (String × Nat)) :
    (numberFrom number steps).map Hop.URL = steps.map Prod.fst := by
  induction steps generalizing number with
  | nil => rfl
  | cons p t ih => simp [numberFrom, ih]

theorem numberFrom_getLast_url (number : Nat) (steps : List (String × Nat)) :
    (numberFrom number steps).getLast?.map Hop.URL = steps.getLast?.map Prod.fst := by
  induction steps generalizing number with
  | nil => rfl
  | cons p t ih =>
    cases t with
    | nil => rfl
    | cons q t2 =>
      have ih2 := ih (number + 1)
      simp only [numberFrom] at ih2 ⊢
      rw [List.getLast?_cons_cons, List.getLast?_cons_cons]
      exact ih2

theorem chain_steps_ne_nil {prev : Option GoURL} {visited : String → Nat} {u : String}
    {fetches : List FetchOutcome} {steps : List (String × Nat)} {fin : String}
    (h : Chain prev visited u fetches steps fin) : steps ≠ [] := by
  induction h with
  | last => simp
  | step => simp

theorem chain_last_url {prev : Option GoURL} {visited : String → Nat} {u : String}
    {fetches : List FetchOutcome} {steps : List (String × Nat)} {fin : String}
    (h : Chain prev visited u fetches steps fin) :
    steps.getLast?.map Prod.fst = some fin := by
  induction h with
  | last prev visited u s loc srv ru hv hp hs => rfl
  | step prev visited u s loc srv ru rest steps fin u2 pu2 hv hp h3 h4 hloc ho hnx hp2 hch ih =>
    have hne := chain_steps_ne_nil hch
    cases steps with
    | nil => exact absurd rfl hne
    | cons q t2 =>
      rw [List.getLast?_cons_cons]
      exact ih

/-- C4: for every clean redirect chain (no repeated URL, no
special-provider Location) of N steps ending in a non-redirect status,
the resolver returns without error exactly the N hops numbered 1..N in
order, each hop's URL is the URL requested at that step, and the final
URL equals the N-th hop's URL. -/
theorem c4_chain_hops {seed fin : String} {fetches : List FetchOutcome}
    {steps : List (String × Nat)}
    (h : Chain none (initialVisited seed) seed fetches steps fin) :
    followRedirects fetches seed = .ret ⟨fin, numberFrom 1 steps, false, none⟩ ∧
    (numberFrom 1 steps).length = steps.length ∧
    (∀ i, i < steps.length → ((numberFrom 1 steps).getD i ⟨0, "", 0⟩).Number = i + 1) ∧
    (numberFrom 1 steps).map Hop.URL = steps.map Prod.fst ∧
    (numberFrom 1 steps).getLast?.map Hop.URL = some fin := by
  refine ⟨?_, numberFrom_length 1 steps, ?_, numberFrom_map_url 1 steps, ?_⟩
  · have hr := chain_run h [] 1 false
    unfold followRedirects
    rw [hr]
    simp
  · intro i hi
    rw [numberFrom_getD_number 1 steps i hi]
    omega
  · rw [numberFrom_getLast_url]
    exact chain_last_url h

/-- C4 witness: spec scenario A — `http://a/1` answers 302 with
Location `/b`, then `http://a/b` answers 200: two hops numbered 1 and
2, final URL equals hop 2's URL. -/
theorem c4_witness :
    followRedirects [.success ⟨302, "/b", ""⟩, .success ⟨200, "", ""⟩] "http://a/1" =
      .ret ⟨"http://a/b", [⟨1, "http://a/1", 302⟩, ⟨2, "http://a/b", 200⟩],
            false, none⟩ := by
  have hch : Chain none (initialVisited "http://a/1") "http://a/1"
      [.success ⟨302, "/b", ""⟩, .success ⟨200, "", ""⟩]
      [("http://a/1", 302), ("http://a/b", 200)] "http://a/b" := by
    apply Chain.step none (initialVisited "http://a/1") "http://a/1" 302 "/b" ""
      ⟨"http", "a", "/1", "", ""⟩ [.success ⟨200, "", ""⟩] [("http://a/b", 200)]
      "http://a/b" "http://a/b" ⟨"http", "a", "/b", "", ""⟩
      (by decide) rfl (by decide) (by decide) (by decide) (by decide) rfl rfl
    exact Chain.last (some ⟨"http", "a", "/b", "", ""⟩)
      (bumpVisited (initialVisited "http://a/1") "http://a/1")
      "http://a/b" 200 "" "" ⟨"http", "a", "/b", "", ""⟩ (by decide) rfl (by decide)
  have h := (c4_chain_hops hch).1
  rw [h]
  rfl

/-! ## Claim C10: error outcomes carry no partial results -/

theorem goFollow_error_empty (fetches : List FetchOutcome) :
    ∀ (urlStr : String) (hops : List Hop) (number : Nat) (prev : Option GoURL)
      (visited : String → Nat) (cf : Bool) (r : FollowReturn),
      goFollow fetches urlStr hops number prev visited cf = .ret r →
      r.Err.isSome = true → r.FinalURL = "" ∧ r.Hops = [] := by
  induction fetches with
  | nil =>
    intro urlStr hops number prev visited cf r h he
    unfold goFollow at h
    repeat' split at h
    all_goals first
      | (cases h <;> exact ⟨rfl, rfl⟩)
      | (cases h <;> simp at he)
      | injections
  | cons f rest ih =>
    intro urlStr hops number prev visited cf r h he
    unfold goFollow at h
    repeat' split at h
    all_goals first
      | (cases h <;> exact ⟨rfl, rfl⟩)
      | (cases h <;> simp at he)
      | (injections; subst_vars; exact ih _ _ _ _ _ _ _ h he)

/-- C10: whenever the resolver returns a genuine error (non-nil `err`:
failed request construction, transport failure, relative-redirect
failure, or URL/parameter parse or decode failure), the returned final
URL is the empty string and the returned hop list is empty — hops
accumulated before the error are discarded. -/
theorem c10_error_no_partial_results (fetches : List FetchOutcome) (seed : String)
    (e : TraceErr)
    (h : (followRedirects fetches seed).errOf = some e) :
    (followRedirects fetches seed).hopsOf = [] ∧
    (followRedirects fetches seed).finalOf = "" := by
  obtain ⟨o, ho⟩ : ∃ o, followRedirects fetches seed = o := ⟨_, rfl⟩
  rw [ho] at h ⊢
  cases o with
  | exitTimeout => simp [TraceOutcome.errOf] at h
  | exitValidation => simp [TraceOutcome.errOf] at h
  | ret r =>
    simp only [TraceOutcome.errOf] at h
    have he : r.Err.isSome = true := by rw [h]; rfl
    have hx := goFollow_error_empty fetches seed [] 1 none (initialVisited seed) false r ho he
    simp only [TraceOutcome.hopsOf, TraceOutcome.finalOf]
    exact ⟨hx.2, hx.1⟩

/-- C10 witness: a transport failure on the first fetch returns the
`accessingURL` error with no hops and an empty final URL. -/
theorem c10_witness :
    (followRedirects [FetchOutcome.netErr] "http://a/1").hopsOf = [] ∧
    (followRedirects [FetchOutcome.netErr] "http://a/1").finalOf = "" :=
  c10_error_no_partial_results [FetchOutcome.netErr] "http://a/1"
    TraceErr.accessingURL rfl
